import Mathlib

/-!
Shallow embedding of the esbuild request adapter and its cross-pass status
ledger (packages/vite/src/esbuild-request.ts), together with theorems about
its resolution behaviour.

The host resolver (esbuild PluginBuild.resolve), the package-name parser from
the core package and the externalized-name lookup from the reverse-exports
package are external collaborators of this module; they appear as function
parameters (or function-valued fields), so every theorem quantifies over all
of their possible behaviours.  The process-wide ledger Map is modelled as an
explicit association-list state threaded through the operations.
-/

set_option autoImplicit false

namespace Embroider

/-- Ledger value: InternalStatus from esbuild-request.ts
(`pending | not_found | found {filename}`). -/
inductive InternalStatus where
  | pending
  | not_found
  | found (filename : String)
  deriving DecidableEq, Repr

/-- The shared channel Map<string, InternalStatus>, modelled as an
association list from specifier to status. -/
abbrev Ledger := List (String × InternalStatus)

/-- Map.get: first binding for the key, if any. -/
def ledgerGet : Ledger → String → Option InternalStatus
  | [], _ => none
  | (k, v) :: rest, id => if k = id then some v else ledgerGet rest id

/-- Map.delete: remove the bindings for the key. -/
def ledgerDelete : Ledger → String → Ledger
  | [], _ => []
  | (k, v) :: rest, id =>
      if k = id then ledgerDelete rest id else (k, v) :: ledgerDelete rest id

/-- Map.set: bind the key to the value, replacing any previous binding. -/
def ledgerSet (l : Ledger) (id : String) (v : InternalStatus) : Ledger :=
  (id, v) :: ledgerDelete l id

/-- requestStatus: set id to pending unconditionally. -/
def requestStatus (id : String) (l : Ledger) : Ledger :=
  ledgerSet l id InternalStatus.pending

/-- writeStatus: set id to status only when the current value is pending. -/
def writeStatus (id : String) (status : InternalStatus) (l : Ledger) : Ledger :=
  if ledgerGet l id = some InternalStatus.pending then ledgerSet l id status else l

/-- readStatus: current value for id (pending when absent), deleting the entry. -/
def readStatus (id : String) (l : Ledger) : InternalStatus × Ledger :=
  ((ledgerGet l id).getD InternalStatus.pending, ledgerDelete l id)

/-- VirtualResponse: an in-memory module with no backing file. -/
structure VirtualResponse where
  specifier : String
  deriving DecidableEq, Repr

/-- An esbuild error message (the text field of a Message). -/
structure EsbuildError where
  text : String
  deriving DecidableEq, Repr

/-- The esbuild OnResolveResult fields this module consumes or produces.
Fields the TypeScript code leaves undefined default to the empty value. -/
structure OnResolveResult where
  path : String := ""
  external : Bool := false
  «namespace» : String := ""
  errors : List EsbuildError := []
  pluginData : Option VirtualResponse := none
  deriving DecidableEq, Repr

/-- Resolution: NotFound carries the host result as diagnostics; Found carries
the true filename, the host-native result and the virtual back-reference
(none models the TypeScript literal false). -/
inductive Resolution where
  | not_found (err : OnResolveResult)
  | found (filename : String) (result : OnResolveResult)
      (virtual : Option VirtualResponse)
  deriving DecidableEq, Repr

/-- ModuleRequest: one resolution attempt. -/
structure ModuleRequest where
  specifier : String
  fromFile : String
  meta : Option String := none
  deriving DecidableEq, Repr

/-- A package known to the metadata cache: its root directory and manifest
(the manifest is opaque to this module; it is only handed to the
externalized-name lookup). -/
structure Package where
  root : String
  packageJSON : String
  deriving DecidableEq, Repr

/-- The dependency metadata cache interface: owner-of-file query and the
application root. -/
structure PackageCache where
  ownerOfFile : String → Option Package
  appRoot : String

/-- The build phase tag. -/
inductive Phase where
  | bundling
  | other
  deriving DecidableEq, Repr

/-- Options the adapter passes to the host resolver call. -/
structure ResolveOptions where
  importer : String
  resolveDir : String
  kind : String
  enableCustomResolver : Bool
  meta : Option String
  deriving DecidableEq, Repr

/-- The host resolution context (esbuild PluginBuild): its resolve call may
re-enter the cooperating resolver, so it both reads and rewrites the ledger. -/
structure PluginBuild where
  resolve : String → ResolveOptions → Ledger → OnResolveResult × Ledger

/-- Node path.dirname (posix), as used to compute resolveDir. -/
def dirname (p : String) : String :=
  let parts := p.splitOn "/"
  if parts.length ≤ 1 then "."
  else if parts.dropLast = [""] then "/"
  else String.intercalate "/" parts.dropLast

/-- Modelled from the spec: cleanUrl from the core package (imported, not in
the provided sources) normalizes the importer to a canonical file-system
path by stripping any query suffix. -/
def cleanUrl (url : String) : String :=
  String.mk (url.data.takeWhile (fun ch => ch ≠ '?'))

/-- String.startsWith, computed on the character lists so that concrete
instances evaluate by kernel reduction. -/
def strStartsWith (s pre : String) : Bool :=
  pre.data.isPrefixOf s.data

/-- Modelled from the spec: packageName from the core package (imported, not
in the provided sources): the package-name prefix of a specifier, or none
when the specifier is a relative or absolute path (no package-name prefix). -/
def corePackageName (specifier : String) : Option String :=
  match specifier.data with
  | [] => none
  | c :: _ =>
      if c = '.' ∨ c = '/' then none
      else some (String.mk (specifier.data.takeWhile (fun ch => ch ≠ '/')))

/-- The adapter state: the fields the private constructor stores. -/
structure EsBuildRequestAdapter where
  packageCache : PackageCache
  phase : Phase
  context : PluginBuild
  kind : String

namespace EsBuildRequestAdapter

/-- The options record resolve passes to this.context.resolve: the importer,
its directory, the import kind, and pluginData that disables recursive
interception while forwarding the request meta. -/
def hostOptions (self : EsBuildRequestAdapter) (request : ModuleRequest) :
    ResolveOptions :=
  { importer := request.fromFile
    resolveDir := dirname request.fromFile
    kind := self.kind
    enableCustomResolver := false
    meta := request.meta }

/-- The externalized name computed when the app-boundary policy fires: a
specifier with no package-name prefix is rewritten through the
externalized-name lookup on the owning package manifest, falling back to the
original specifier; a package-qualified specifier is kept unchanged. -/
def externalizedNameFor (packageName : String → Option String)
    (externalName : String → String → Option String)
    (pkg : Package) (specifier : String) : String :=
  if (packageName specifier).isNone then
    (externalName pkg.packageJSON specifier).getD specifier
  else specifier

/-- The app-boundary externalization policy inside resolve (bundling phase
only): when the host-resolved file is owned by the package at the app root
and the namespace is file or reserved, produce the synthetic externalized
Found result; otherwise produce nothing. -/
def appBoundary (packageName : String → Option String)
    (externalName : String → String → Option String)
    (self : EsBuildRequestAdapter) (specifier : String)
    (result : OnResolveResult) : Option Resolution :=
  if self.phase = Phase.bundling then
    match self.packageCache.ownerOfFile result.path with
    | some pkg =>
        if pkg.root = self.packageCache.appRoot ∧
            (result.«namespace» = "file" ∨
              strStartsWith result.«namespace» "embroider-") then
          let externalizedName :=
            externalizedNameFor packageName externalName pkg specifier
          some (Resolution.found externalizedName
            { path := externalizedName, external := true } none)
        else none
    | none => none
  else none

/-- notFoundResponse: a NotFound carrying a single synthesized message. -/
def notFoundResponse (request : ModuleRequest) : Resolution :=
  Resolution.not_found
    { errors := [{ text := "module not found " ++ request.specifier }] }

/-- virtualResponse: a Found for an in-memory module, without consulting the
host resolver. -/
def virtualResponse (_request : ModuleRequest) (virtual : VirtualResponse) :
    Resolution :=
  Resolution.found virtual.specifier
    { path := virtual.specifier
      «namespace» := "embroider-virtual"
      pluginData := some virtual }
    (some virtual)

/-- resolve: mark the specifier pending, delegate to the host resolver (which
may rewrite the ledger through the cooperating resolver), consume the ledger
entry, and produce the disambiguated Resolution.  packageName and
externalName are the two functions the source imports from sibling
packages. -/
def resolve (packageName : String → Option String)
    (externalName : String → String → Option String)
    (self : EsBuildRequestAdapter) (request : ModuleRequest)
    (ledger : Ledger) : Resolution × Ledger :=
  let ledger1 := requestStatus request.specifier ledger
  let hostOut := self.context.resolve request.specifier
    (self.hostOptions request) ledger1
  let result := hostOut.1
  let statusOut := readStatus request.specifier hostOut.2
  let status := statusOut.1
  let ledger3 := statusOut.2
  if result.errors.length > 0 ∨ status = InternalStatus.not_found then
    (Resolution.not_found result, ledger3)
  else
    match self.appBoundary packageName externalName request.specifier result with
    | some res => (res, ledger3)
    | none =>
        let filename :=
          match status with
          | InternalStatus.found f =>
              if result.external then f else result.path
          | _ => result.path
        (Resolution.found filename result none, ledger3)

/-- Plugin-call metadata under the embroider key. -/
structure EmbroiderPluginData where
  enableCustomResolver : Option Bool := none
  meta : Option String := none

/-- Plugin-call metadata (pluginData); only the embroider key is consumed. -/
structure PluginData where
  embroider : Option EmbroiderPluginData := none

/-- create: gate whether the incoming call is intercepted, and build the
initial ModuleRequest plus the adapter.  cleanUrlFn is the imported cleanUrl
normalizer; win32 tells whether process.platform is win32.  A missing
importer and an empty-string importer are both falsy in the source, so
importer is an Option and the empty string also declines. -/
def create (cleanUrlFn : String → String) (win32 : Bool)
    (packageCache : PackageCache) (phase : Phase) (build : PluginBuild)
    (kind : String) (path : String) (importer : Option String)
    (pluginData : Option PluginData) :
    Option (ModuleRequest × EsBuildRequestAdapter) :=
  if ¬ (((pluginData.bind (fun p => p.embroider)).bind
        (fun e => e.enableCustomResolver)).getD true) then
    none
  else if path ≠ "" ∧ importer.getD "" ≠ "" ∧
      ¬ strStartsWith path "\x00" ∧ ¬ strStartsWith path "virtual-module:" then
    let fromFile0 := cleanUrlFn (importer.getD "")
    let fromFile := if win32 then fromFile0.replace "/" "\\" else fromFile0
    some
      ({ specifier := path
         fromFile := fromFile
         meta := (pluginData.bind (fun p => p.embroider)).bind (fun e => e.meta) },
       { packageCache := packageCache, phase := phase, context := build,
         kind := kind })
  else none

end EsBuildRequestAdapter

/-! Concrete fixtures used to evaluate the theorems on closed inputs. -/

/-- A host result for a file inside the application. -/
def appFileResult : OnResolveResult :=
  { path := "/app/src/x.js", external := false, «namespace» := "file" }

/-- A host result marked external by the host. -/
def externalizedHostResult : OnResolveResult :=
  { path := "my-dep", external := true, «namespace» := "file" }

/-- A host context that returns a fixed result and a fixed ledger. -/
def constBuild (result : OnResolveResult) (l : Ledger) : PluginBuild :=
  ⟨fun _ _ _ => (result, l)⟩

/-- A host context that returns a fixed result and leaves the ledger alone. -/
def idBuild (result : OnResolveResult) : PluginBuild :=
  ⟨fun _ _ l => (result, l)⟩

/-- A metadata cache whose every file is owned by the app package. -/
def appOwnedCache : PackageCache :=
  ⟨fun _ => some ⟨"/app", "{}"⟩, "/app"⟩

/-- A metadata cache that knows no owner for any file. -/
def noOwnerCache : PackageCache :=
  ⟨fun _ => none, "/app"⟩

/-- The externalized-name lookup that never finds a manifest entry. -/
def noExternalName : String → String → Option String := fun _ _ => none

/-- An externalized-name lookup that rewrites an app-relative specifier to a
package-qualified name under the my-app namespace. -/
def manifestExternalName : String → String → Option String :=
  fun _ s => some ("my-app/" ++ String.mk (s.data.drop 2))

/-- A relative specifier requested from inside a dependency. -/
def appRequest : ModuleRequest :=
  ⟨"./widgets/button", "/app/node_modules/dep/index.js", none⟩

/-- An absolute-path specifier that the host resolves to itself. -/
def absRequest : ModuleRequest :=
  ⟨"/app/src/x.js", "/app/node_modules/dep/index.js", none⟩

/-- A package-qualified specifier. -/
def pkgRequest : ModuleRequest :=
  ⟨"my-dep/thing", "/app/node_modules/dep/index.js", none⟩

/-- A bare specifier used for the ledger-driven scenarios. -/
def xRequest : ModuleRequest :=
  ⟨"x", "/app/node_modules/dep/index.js", none⟩

/-- Bundling-phase adapter over the app-owned cache. -/
def bundlingAdapter : EsBuildRequestAdapter :=
  ⟨appOwnedCache, Phase.bundling, idBuild appFileResult, "import-statement"⟩

/-- Other-phase adapter over the app-owned cache, same host behaviour. -/
def otherAdapter : EsBuildRequestAdapter :=
  ⟨appOwnedCache, Phase.other, idBuild appFileResult, "import-statement"⟩

/-- Ledger state in which the cooperating resolver recorded a Found for x. -/
def foundLedger : Ledger := [("x", InternalStatus.found "/app/real.js")]

/-- Adapter whose host externalizes the request while the cooperating
resolver has recorded the true on-disk filename. -/
def disambAdapter : EsBuildRequestAdapter :=
  ⟨noOwnerCache, Phase.other, constBuild externalizedHostResult foundLedger,
   "import-statement"⟩

/-- An error-free host result outside the app. -/
def cleanHostResult : OnResolveResult :=
  { path := "/app/node_modules/lodash/foo.js", «namespace» := "file" }

/-- Ledger state in which the cooperating resolver recorded a NotFound. -/
def notFoundLedger : Ledger := [("x", InternalStatus.not_found)]

/-- Adapter whose host succeeds while the cooperating resolver recorded a
NotFound for the specifier. -/
def ledgerNotFoundAdapter : EsBuildRequestAdapter :=
  ⟨noOwnerCache, Phase.other, constBuild cleanHostResult notFoundLedger,
   "import-statement"⟩

/-- A host result carrying an error. -/
def errorResult : OnResolveResult :=
  { errors := [{ text := "could not resolve" }] }

/-- Adapter whose host reports an error. -/
def errorAdapter : EsBuildRequestAdapter :=
  ⟨noOwnerCache, Phase.other, idBuild errorResult, "import-statement"⟩

/-! Helper lemmas about the ledger operations. -/

theorem ledgerGet_ledgerDelete (l : Ledger) (id : String) :
    ledgerGet (ledgerDelete l id) id = none := by
  induction l with
  | nil => rfl
  | cons hd tl ih =>
      obtain ⟨k, v⟩ := hd
      by_cases hk : k = id
      · simpa [ledgerDelete, hk] using ih
      · simpa [ledgerDelete, ledgerGet, hk] using ih

theorem ledgerGet_ledgerSet_self (l : Ledger) (id : String) (v : InternalStatus) :
    ledgerGet (ledgerSet l id v) id = some v := by
  simp [ledgerSet, ledgerGet]

/-- Unfolding of resolve, given the outcome of the host resolver call. -/
theorem resolve_eq_of_host
    (packageName : String → Option String)
    (externalName : String → String → Option String)
    (self : EsBuildRequestAdapter) (request : ModuleRequest)
    (ledger ledger2 : Ledger) (result : OnResolveResult)
    (hhost : self.context.resolve request.specifier (self.hostOptions request)
      (requestStatus request.specifier ledger) = (result, ledger2)) :
    self.resolve packageName externalName request ledger =
      (if result.errors.length > 0 ∨
          (ledgerGet ledger2 request.specifier).getD InternalStatus.pending =
            InternalStatus.not_found then
        (Resolution.not_found result, ledgerDelete ledger2 request.specifier)
      else
        match self.appBoundary packageName externalName request.specifier result with
        | some res => (res, ledgerDelete ledger2 request.specifier)
        | none =>
            (Resolution.found
              (match (ledgerGet ledger2 request.specifier).getD InternalStatus.pending with
               | InternalStatus.found f =>
                   if result.external then f else result.path
               | _ => result.path)
              result none,
             ledgerDelete ledger2 request.specifier)) := by
  unfold EsBuildRequestAdapter.resolve
  simp only [hhost, readStatus]

/-- The app-boundary policy fires when the phase is bundling, the resolved
file is owned by the package at the app root, and the namespace is file or
reserved; the produced result is the synthetic externalized Found. -/
theorem appBoundary_eq_some
    (packageName : String → Option String)
    (externalName : String → String → Option String)
    (self : EsBuildRequestAdapter) (specifier : String)
    (result : OnResolveResult) (pkg : Package)
    (hph : self.phase = Phase.bundling)
    (hpkg : self.packageCache.ownerOfFile result.path = some pkg)
    (hroot : pkg.root = self.packageCache.appRoot)
    (hns : result.«namespace» = "file" ∨
      strStartsWith result.«namespace» "embroider-") :
    self.appBoundary packageName externalName specifier result =
      some (Resolution.found
        (EsBuildRequestAdapter.externalizedNameFor packageName externalName
          pkg specifier)
        { path := EsBuildRequestAdapter.externalizedNameFor packageName
            externalName pkg specifier,
          external := true } none) := by
  unfold EsBuildRequestAdapter.appBoundary
  rw [hph, if_pos rfl, hpkg]
  dsimp only
  rw [if_pos ⟨hroot, hns⟩]

/-- When the app-boundary policy produces a result, the firing conditions
held and the result is the synthetic externalized Found. -/
theorem appBoundary_fire_conditions
    (packageName : String → Option String)
    (externalName : String → String → Option String)
    (self : EsBuildRequestAdapter) (specifier : String)
    (result : OnResolveResult) (r : Resolution)
    (h : self.appBoundary packageName externalName specifier result = some r) :
    ∃ pkg, self.phase = Phase.bundling ∧
      self.packageCache.ownerOfFile result.path = some pkg ∧
      pkg.root = self.packageCache.appRoot ∧
      (result.«namespace» = "file" ∨
        strStartsWith result.«namespace» "embroider-") ∧
      r = Resolution.found
        (EsBuildRequestAdapter.externalizedNameFor packageName externalName
          pkg specifier)
        { path := EsBuildRequestAdapter.externalizedNameFor packageName
            externalName pkg specifier,
          external := true } none := by
  unfold EsBuildRequestAdapter.appBoundary at h
  by_cases hph : self.phase = Phase.bundling
  · rw [if_pos hph] at h
    cases hpkg : self.packageCache.ownerOfFile result.path with
    | none => rw [hpkg] at h; exact absurd h (by simp)
    | some pkg =>
        rw [hpkg] at h
        dsimp only at h
        by_cases hc : pkg.root = self.packageCache.appRoot ∧
            (result.«namespace» = "file" ∨
              strStartsWith result.«namespace» "embroider-")
        · rw [if_pos hc] at h
          exact ⟨pkg, hph, rfl, hc.1, hc.2, (Option.some.inj h).symm⟩
        · rw [if_neg hc] at h; exact absurd h (by simp)
  · rw [if_neg hph] at h; exact absurd h (by simp)

/-- When the firing conditions do not hold, the app-boundary policy produces
nothing. -/
theorem appBoundary_eq_none
    (packageName : String → Option String)
    (externalName : String → String → Option String)
    (self : EsBuildRequestAdapter) (specifier : String)
    (result : OnResolveResult)
    (h : ¬ ∃ pkg, self.phase = Phase.bundling ∧
      self.packageCache.ownerOfFile result.path = some pkg ∧
      pkg.root = self.packageCache.appRoot ∧
      (result.«namespace» = "file" ∨
        strStartsWith result.«namespace» "embroider-")) :
    self.appBoundary packageName externalName specifier result = none := by
  cases hb : self.appBoundary packageName externalName specifier result with
  | none => rfl
  | some r =>
      obtain ⟨pkg, h1, h2, h3, h4, _⟩ :=
        appBoundary_fire_conditions packageName externalName self specifier
          result r hb
      exact absurd ⟨pkg, h1, h2, h3, h4⟩ h

/-! Theorems for the claims. -/

/-- C3: readStatus is single-consumption: calling it twice in succession with
no intervening write yields pending on the second call (the first call
deletes the entry), and readStatus of an absent id yields pending. -/
theorem readStatus_single_consumption (l : Ledger) (id : String) :
    (readStatus id (readStatus id l).2).1 = InternalStatus.pending ∧
    (ledgerGet l id = none → (readStatus id l).1 = InternalStatus.pending) := by
  constructor
  · simp [readStatus, ledgerGet_ledgerDelete]
  · intro h
    simp [readStatus, h]

/-- Witness for C3 on a concrete ledger. -/
theorem readStatus_single_consumption_witness :
    (readStatus "a" (readStatus "a" [("a", InternalStatus.found "/f.js")]).2).1 =
      InternalStatus.pending ∧
    (readStatus "b" [("a", InternalStatus.found "/f.js")]).1 =
      InternalStatus.pending :=
  ⟨(readStatus_single_consumption [("a", InternalStatus.found "/f.js")] "a").1,
   (readStatus_single_consumption [("a", InternalStatus.found "/f.js")] "b").2
     (by decide)⟩

/-- C4: writeStatus changes the ledger only when the current value for the id
is pending; otherwise the ledger is completely unchanged, so a Found write
followed by a NotFound write with no intervening read leaves the Found value
to be returned by readStatus. -/
theorem writeStatus_only_when_pending (l : Ledger) (id : String) :
    (∀ status, ledgerGet l id ≠ some InternalStatus.pending →
      writeStatus id status l = l) ∧
    (∀ f, ledgerGet l id = some InternalStatus.pending →
      (readStatus id (writeStatus id InternalStatus.not_found
        (writeStatus id (InternalStatus.found f) l))).1 =
        InternalStatus.found f) := by
  constructor
  · intro status h
    simp [writeStatus, h]
  · intro f h
    simp [writeStatus, h, ledgerSet, ledgerGet, readStatus]

/-- Witness for C4 on concrete ledgers: a write on a found entry, a write on
an absent entry, and the Found-then-NotFound double-write scenario. -/
theorem writeStatus_only_when_pending_witness :
    writeStatus "a" InternalStatus.not_found [("a", InternalStatus.found "/f.js")] =
      [("a", InternalStatus.found "/f.js")] ∧
    writeStatus "b" InternalStatus.not_found [] = [] ∧
    (readStatus "c" (writeStatus "c" InternalStatus.not_found
      (writeStatus "c" (InternalStatus.found "/f.js")
        [("c", InternalStatus.pending)]))).1 = InternalStatus.found "/f.js" :=
  ⟨(writeStatus_only_when_pending [("a", InternalStatus.found "/f.js")] "a").1
      InternalStatus.not_found (by decide),
   (writeStatus_only_when_pending [] "b").1 InternalStatus.not_found (by decide),
   (writeStatus_only_when_pending [("c", InternalStatus.pending)] "c").2
      "/f.js" (by decide)⟩

/-- C1: when the consumed ledger status is Found F, the host result is
error-free and marked external, and the bundling-phase app-boundary policy
does not fire, resolve returns a Found whose filename is the ledger's
recorded path F rather than the host result's own path; in every other
non-error, non-boundary case the returned filename is the host result's
path. -/
theorem resolve_prefers_ledger_filename
    (packageName : String → Option String)
    (externalName : String → String → Option String)
    (self : EsBuildRequestAdapter) (request : ModuleRequest)
    (ledger ledger2 : Ledger) (result : OnResolveResult)
    (hhost : self.context.resolve request.specifier (self.hostOptions request)
      (requestStatus request.specifier ledger) = (result, ledger2))
    (herr : result.errors = [])
    (hnb : self.appBoundary packageName externalName request.specifier result =
      none) :
    (∀ F, ledgerGet ledger2 request.specifier =
        some (InternalStatus.found F) →
      result.external = true →
      (self.resolve packageName externalName request ledger).1 =
        Resolution.found F result none) ∧
    ((ledgerGet ledger2 request.specifier).getD InternalStatus.pending ≠
        InternalStatus.not_found →
      (¬ ∃ F, (ledgerGet ledger2 request.specifier).getD InternalStatus.pending =
          InternalStatus.found F ∧ result.external = true) →
      (self.resolve packageName externalName request ledger).1 =
        Resolution.found result.path result none) := by
  rw [resolve_eq_of_host packageName externalName self request ledger ledger2
    result hhost]
  constructor
  · intro F hF hext
    simp [herr, hF, hnb, hext]
  · intro hnf hnosub
    cases hsc : (ledgerGet ledger2 request.specifier).getD InternalStatus.pending with
    | pending => simp [herr, hnb, hsc]
    | not_found => exact absurd hsc hnf
    | found f =>
        have hext : result.external = false := by
          cases hb : result.external with
          | false => rfl
          | true => exact absurd ⟨f, hsc, hb⟩ hnosub
        simp [herr, hnb, hsc, hext]

/-- Witness for C1: the host externalizes the specifier while the cooperating
resolver recorded the true on-disk filename, so resolve reports the recorded
filename; and with no ledger entry, resolve reports the host path. -/
theorem resolve_prefers_ledger_filename_witness :
    (disambAdapter.resolve corePackageName noExternalName xRequest []).1 =
      Resolution.found "/app/real.js" externalizedHostResult none ∧
    (otherAdapter.resolve corePackageName noExternalName appRequest []).1 =
      Resolution.found appFileResult.path appFileResult none :=
  ⟨(resolve_prefers_ledger_filename corePackageName noExternalName
      disambAdapter xRequest [] foundLedger externalizedHostResult rfl rfl
      rfl).1 "/app/real.js" (by decide) rfl,
   (resolve_prefers_ledger_filename corePackageName noExternalName
      otherAdapter appRequest []
      (requestStatus appRequest.specifier []) appFileResult rfl rfl rfl).2
      (by decide) (fun ⟨_, hF, _⟩ => nomatch hF)⟩

/-- C2: with an error-free host result and no ledger NotFound, the
app-boundary policy fires exactly when the phase is bundling, the owning
package of the host-resolved path has the cache's appRoot as root, and the
host namespace is file or starts with the reserved embroider- prefix; when
it fires, resolve returns a Found whose result is externalized with path
equal to the returned filename (no ledger filename substitution); when it
does not fire — in particular whenever the phase is other — resolve returns
the raw host resolution. -/
theorem resolve_app_boundary_policy
    (packageName : String → Option String)
    (externalName : String → String → Option String)
    (self : EsBuildRequestAdapter) (request : ModuleRequest)
    (ledger ledger2 : Ledger) (result : OnResolveResult)
    (hhost : self.context.resolve request.specifier (self.hostOptions request)
      (requestStatus request.specifier ledger) = (result, ledger2))
    (herr : result.errors = [])
    (hnf : (ledgerGet ledger2 request.specifier).getD InternalStatus.pending ≠
      InternalStatus.not_found) :
    (∀ pkg, self.phase = Phase.bundling →
      self.packageCache.ownerOfFile result.path = some pkg →
      pkg.root = self.packageCache.appRoot →
      (result.«namespace» = "file" ∨
        strStartsWith result.«namespace» "embroider-") →
      ∃ en, (self.resolve packageName externalName request ledger).1 =
        Resolution.found en { path := en, external := true } none) ∧
    ((¬ ∃ pkg, self.phase = Phase.bundling ∧
        self.packageCache.ownerOfFile result.path = some pkg ∧
        pkg.root = self.packageCache.appRoot ∧
        (result.«namespace» = "file" ∨
          strStartsWith result.«namespace» "embroider-")) →
      ∃ fn, (self.resolve packageName externalName request ledger).1 =
        Resolution.found fn result none) ∧
    (self.phase = Phase.other →
      ∃ fn, (self.resolve packageName externalName request ledger).1 =
        Resolution.found fn result none) := by
  rw [resolve_eq_of_host packageName externalName self request ledger ledger2
    result hhost]
  refine ⟨?_, ?_, ?_⟩
  · intro pkg hph hpkg hroot hns
    rw [appBoundary_eq_some packageName externalName self request.specifier
      result pkg hph hpkg hroot hns]
    refine ⟨EsBuildRequestAdapter.externalizedNameFor packageName externalName
      pkg request.specifier, ?_⟩
    simp [herr, hnf]
  · intro hnofire
    rw [appBoundary_eq_none packageName externalName self request.specifier
      result hnofire]
    refine ⟨(match (ledgerGet ledger2 request.specifier).getD
        InternalStatus.pending with
      | InternalStatus.found f => if result.external then f else result.path
      | _ => result.path), ?_⟩
    simp [herr, hnf]
  · intro hph
    have hnofire : ¬ ∃ pkg, self.phase = Phase.bundling ∧
        self.packageCache.ownerOfFile result.path = some pkg ∧
        pkg.root = self.packageCache.appRoot ∧
        (result.«namespace» = "file" ∨
          strStartsWith result.«namespace» "embroider-") := by
      rintro ⟨pkg, hb, -, -, -⟩
      rw [hph] at hb
      cases hb
    rw [appBoundary_eq_none packageName externalName self request.specifier
      result hnofire]
    refine ⟨(match (ledgerGet ledger2 request.specifier).getD
        InternalStatus.pending with
      | InternalStatus.found f => if result.external then f else result.path
      | _ => result.path), ?_⟩
    simp [herr, hnf]

/-- Witness for C2: the bundling-phase adapter externalizes a host-resolved
app file, while the other-phase adapter returns the raw host resolution of
the identical setup. -/
theorem resolve_app_boundary_policy_witness :
    (∃ en, (bundlingAdapter.resolve corePackageName noExternalName appRequest
        []).1 = Resolution.found en { path := en, external := true } none) ∧
    (∃ fn, (otherAdapter.resolve corePackageName noExternalName appRequest
        []).1 = Resolution.found fn appFileResult none) :=
  ⟨(resolve_app_boundary_policy corePackageName noExternalName
      bundlingAdapter appRequest [] (requestStatus appRequest.specifier [])
      appFileResult rfl rfl (by decide)).1 ⟨"/app", "{}"⟩ rfl rfl rfl
      (Or.inl rfl),
   (resolve_app_boundary_policy corePackageName noExternalName
      otherAdapter appRequest [] (requestStatus appRequest.specifier [])
      appFileResult rfl rfl (by decide)).2.2 rfl⟩

/-- C5: resolve yields a NotFound exactly when the host result carries
errors or the consumed ledger status is not_found; that NotFound carries the
host result (with its errors) as diagnostics.  resolve is a total function
into Resolution, so every path yields a well-formed Resolution value and no
path throws. -/
theorem resolve_not_found_characterization
    (packageName : String → Option String)
    (externalName : String → String → Option String)
    (self : EsBuildRequestAdapter) (request : ModuleRequest)
    (ledger ledger2 : Ledger) (result : OnResolveResult)
    (hhost : self.context.resolve request.specifier (self.hostOptions request)
      (requestStatus request.specifier ledger) = (result, ledger2)) :
    ((∃ err, (self.resolve packageName externalName request ledger).1 =
        Resolution.not_found err) ↔
      (result.errors ≠ [] ∨
        (ledgerGet ledger2 request.specifier).getD InternalStatus.pending =
          InternalStatus.not_found)) ∧
    ((result.errors ≠ [] ∨
        (ledgerGet ledger2 request.specifier).getD InternalStatus.pending =
          InternalStatus.not_found) →
      (self.resolve packageName externalName request ledger).1 =
        Resolution.not_found result) := by
  have hres := resolve_eq_of_host packageName externalName self request ledger
    ledger2 result hhost
  by_cases hcond : result.errors.length > 0 ∨
      (ledgerGet ledger2 request.specifier).getD InternalStatus.pending =
        InternalStatus.not_found
  · rw [hres, if_pos hcond]
    have hcond' : result.errors ≠ [] ∨
        (ledgerGet ledger2 request.specifier).getD InternalStatus.pending =
          InternalStatus.not_found :=
      hcond.imp (fun h => List.length_pos.mp h) id
    exact ⟨⟨fun _ => hcond', fun _ => ⟨result, rfl⟩⟩, fun _ => rfl⟩
  · rw [hres, if_neg hcond]
    constructor
    · constructor
      · rintro ⟨err, herr⟩
        exfalso
        cases hb : self.appBoundary packageName externalName request.specifier
            result with
        | some r =>
            obtain ⟨pkg, -, -, -, -, hr⟩ := appBoundary_fire_conditions
              packageName externalName self request.specifier result r hb
            rw [hb] at herr
            dsimp only at herr
            rw [hr] at herr
            cases herr
        | none =>
            rw [hb] at herr
            dsimp only at herr
            cases herr
      · intro h
        exact absurd (h.imp (fun hl => List.length_pos.mpr hl) id) hcond
    · intro h
      exact absurd (h.imp (fun hl => List.length_pos.mpr hl) id) hcond

/-- Witness for C5: a host error produces a NotFound carrying the host
result, and an error-free host call with no ledger NotFound produces a
Found (the NotFound characterization's negative side). -/
theorem resolve_not_found_characterization_witness :
    (errorAdapter.resolve corePackageName noExternalName xRequest []).1 =
      Resolution.not_found errorResult ∧
    ¬ ∃ err, (otherAdapter.resolve corePackageName noExternalName appRequest
        []).1 = Resolution.not_found err :=
  ⟨(resolve_not_found_characterization corePackageName noExternalName
      errorAdapter xRequest [] (requestStatus xRequest.specifier [])
      errorResult rfl).2 (Or.inl (by decide)),
   fun hex =>
    ((resolve_not_found_characterization corePackageName noExternalName
        otherAdapter appRequest [] (requestStatus appRequest.specifier [])
        appFileResult rfl).1.mp hex).elim
      (fun h => absurd rfl h) (fun h => nomatch h)⟩

/-- C10: when the host result is error-free but the consumed ledger status
is not_found, resolve returns a NotFound whose diagnostics are that host
result with its empty errors list — no error message at all, and in
particular not the message notFoundResponse would produce for the same
request. -/
theorem resolve_ledger_not_found_diagnostics
    (packageName : String → Option String)
    (externalName : String → String → Option String)
    (self : EsBuildRequestAdapter) (request : ModuleRequest)
    (ledger ledger2 : Ledger) (result : OnResolveResult)
    (hhost : self.context.resolve request.specifier (self.hostOptions request)
      (requestStatus request.specifier ledger) = (result, ledger2))
    (herr : result.errors = [])
    (hstat : ledgerGet ledger2 request.specifier =
      some InternalStatus.not_found) :
    (self.resolve packageName externalName request ledger).1 =
      Resolution.not_found result ∧
    result.errors = [] ∧
    (self.resolve packageName externalName request ledger).1 ≠
      EsBuildRequestAdapter.notFoundResponse request := by
  have heq : (self.resolve packageName externalName request ledger).1 =
      Resolution.not_found result := by
    rw [resolve_eq_of_host packageName externalName self request ledger
      ledger2 result hhost, if_pos (Or.inr (by rw [hstat]; rfl))]
  refine ⟨heq, herr, ?_⟩
  rw [heq]
  unfold EsBuildRequestAdapter.notFoundResponse
  intro hcontra
  have herrs := congrArg
    (fun r => match r with
      | Resolution.not_found err => err.errors
      | Resolution.found _ res _ => res.errors) hcontra
  dsimp only at herrs
  rw [herr] at herrs
  cases herrs

/-- Witness for C10: the host succeeds while the cooperating resolver
recorded a NotFound; the result is a NotFound carrying the error-free host
result and differing from the synthesized not-found response. -/
theorem resolve_ledger_not_found_diagnostics_witness :
    (ledgerNotFoundAdapter.resolve corePackageName noExternalName xRequest
        []).1 = Resolution.not_found cleanHostResult ∧
    cleanHostResult.errors = [] ∧
    (ledgerNotFoundAdapter.resolve corePackageName noExternalName xRequest
        []).1 ≠ EsBuildRequestAdapter.notFoundResponse xRequest :=
  resolve_ledger_not_found_diagnostics corePackageName noExternalName
    ledgerNotFoundAdapter xRequest [] notFoundLedger cleanHostResult rfl rfl
    (by decide)

/-- C6: when the app-boundary policy fires, a specifier with no package-name
prefix is externalized through the externalized-name lookup on the owning
package manifest, falling back to the original specifier when the lookup
yields nothing; a specifier with a package-name prefix is used unchanged. -/
theorem boundary_externalized_name
    (packageName : String → Option String)
    (externalName : String → String → Option String)
    (self : EsBuildRequestAdapter) (request : ModuleRequest)
    (ledger ledger2 : Ledger) (result : OnResolveResult) (pkg : Package)
    (hhost : self.context.resolve request.specifier (self.hostOptions request)
      (requestStatus request.specifier ledger) = (result, ledger2))
    (herr : result.errors = [])
    (hnf : (ledgerGet ledger2 request.specifier).getD InternalStatus.pending ≠
      InternalStatus.not_found)
    (hph : self.phase = Phase.bundling)
    (hpkg : self.packageCache.ownerOfFile result.path = some pkg)
    (hroot : pkg.root = self.packageCache.appRoot)
    (hns : result.«namespace» = "file" ∨
      strStartsWith result.«namespace» "embroider-") :
    (packageName request.specifier = none →
      (∀ n, externalName pkg.packageJSON request.specifier = some n →
        (self.resolve packageName externalName request ledger).1 =
          Resolution.found n { path := n, external := true } none) ∧
      (externalName pkg.packageJSON request.specifier = none →
        (self.resolve packageName externalName request ledger).1 =
          Resolution.found request.specifier
            { path := request.specifier, external := true } none)) ∧
    (∀ p, packageName request.specifier = some p →
      (self.resolve packageName externalName request ledger).1 =
        Resolution.found request.specifier
          { path := request.specifier, external := true } none) := by
  have hfire : (self.resolve packageName externalName request ledger).1 =
      Resolution.found
        (EsBuildRequestAdapter.externalizedNameFor packageName externalName
          pkg request.specifier)
        { path := EsBuildRequestAdapter.externalizedNameFor packageName
            externalName pkg request.specifier,
          external := true } none := by
    rw [resolve_eq_of_host packageName externalName self request ledger
      ledger2 result hhost, if_neg (by simp [herr, hnf]),
      appBoundary_eq_some packageName externalName self request.specifier
        result pkg hph hpkg hroot hns]
  refine ⟨fun hpn => ⟨fun n hen => ?_, fun hen => ?_⟩, fun p hpn => ?_⟩
  · rw [hfire]
    simp [EsBuildRequestAdapter.externalizedNameFor, hpn, hen]
  · rw [hfire]
    simp [EsBuildRequestAdapter.externalizedNameFor, hpn, hen]
  · rw [hfire]
    simp [EsBuildRequestAdapter.externalizedNameFor, hpn]

/-- Witness for C6: a relative specifier externalizes to its manifest-derived
name when the lookup succeeds, falls back to itself when the lookup yields
nothing, and a package-qualified specifier is used unchanged. -/
theorem boundary_externalized_name_witness :
    (bundlingAdapter.resolve corePackageName manifestExternalName appRequest
        []).1 = Resolution.found "my-app/widgets/button"
        { path := "my-app/widgets/button", external := true } none ∧
    (bundlingAdapter.resolve corePackageName noExternalName appRequest
        []).1 = Resolution.found "./widgets/button"
        { path := "./widgets/button", external := true } none ∧
    (bundlingAdapter.resolve corePackageName noExternalName pkgRequest
        []).1 = Resolution.found "my-dep/thing"
        { path := "my-dep/thing", external := true } none :=
  ⟨((boundary_externalized_name corePackageName manifestExternalName
      bundlingAdapter appRequest [] (requestStatus appRequest.specifier [])
      appFileResult ⟨"/app", "{}"⟩ rfl rfl (by decide) rfl rfl rfl
      (Or.inl rfl)).1 (by decide)).1 "my-app/widgets/button" (by decide),
   ((boundary_externalized_name corePackageName noExternalName
      bundlingAdapter appRequest [] (requestStatus appRequest.specifier [])
      appFileResult ⟨"/app", "{}"⟩ rfl rfl (by decide) rfl rfl rfl
      (Or.inl rfl)).1 (by decide)).2 rfl,
   (boundary_externalized_name corePackageName noExternalName
      bundlingAdapter pkgRequest [] (requestStatus pkgRequest.specifier [])
      appFileResult ⟨"/app", "{}"⟩ rfl rfl (by decide) rfl rfl rfl
      (Or.inl rfl)).2 "my-dep" (by decide)⟩

/-- C7 counterexample: in the bundling phase, with the host-resolved file
owned by the application root in namespace file, the externalized Found can
carry a filename equal to the raw on-disk path the host produced: an
absolute specifier that the host resolves to itself, with no manifest
external name, externalizes to that very path. -/
theorem boundary_filename_eq_disk_path_cex :
    (bundlingAdapter.resolve corePackageName noExternalName absRequest
        []).1 = Resolution.found "/app/src/x.js"
        { path := "/app/src/x.js", external := true } none ∧
    appFileResult.path = "/app/src/x.js" := by
  constructor <;> rfl

/-- C7 amended: in the bundling phase with the app-boundary policy firing,
the returned externalized Found filename never equals the raw on-disk path,
provided neither the original specifier nor the manifest-derived external
name is itself that path. -/
theorem boundary_filename_ne_disk_path
    (packageName : String → Option String)
    (externalName : String → String → Option String)
    (self : EsBuildRequestAdapter) (request : ModuleRequest)
    (ledger ledger2 : Ledger) (result : OnResolveResult) (pkg : Package)
    (hhost : self.context.resolve request.specifier (self.hostOptions request)
      (requestStatus request.specifier ledger) = (result, ledger2))
    (herr : result.errors = [])
    (hnf : (ledgerGet ledger2 request.specifier).getD InternalStatus.pending ≠
      InternalStatus.not_found)
    (hph : self.phase = Phase.bundling)
    (hpkg : self.packageCache.ownerOfFile result.path = some pkg)
    (hroot : pkg.root = self.packageCache.appRoot)
    (hns : result.«namespace» = "file" ∨
      strStartsWith result.«namespace» "embroider-")
    (hspec : request.specifier ≠ result.path)
    (hlook : ∀ n, externalName pkg.packageJSON request.specifier = some n →
      n ≠ result.path) :
    ∃ en, (self.resolve packageName externalName request ledger).1 =
        Resolution.found en { path := en, external := true } none ∧
      en ≠ result.path := by
  refine ⟨EsBuildRequestAdapter.externalizedNameFor packageName externalName
    pkg request.specifier, ?_, ?_⟩
  · rw [resolve_eq_of_host packageName externalName self request ledger
      ledger2 result hhost, if_neg (by simp [herr, hnf]),
      appBoundary_eq_some packageName externalName self request.specifier
        result pkg hph hpkg hroot hns]
  · unfold EsBuildRequestAdapter.externalizedNameFor
    by_cases hpn : (packageName request.specifier).isNone
    · rw [if_pos hpn]
      cases hen : externalName pkg.packageJSON request.specifier with
      | none => simpa using hspec
      | some n => simpa using hlook n hen
    · rw [if_neg hpn]
      exact hspec

/-- Witness for the amended C7: a relative specifier distinct from the
on-disk path, with no manifest external name, externalizes to a filename
that differs from the on-disk path. -/
theorem boundary_filename_ne_disk_path_witness :
    ∃ en, (bundlingAdapter.resolve corePackageName noExternalName appRequest
        []).1 = Resolution.found en { path := en, external := true } none ∧
      en ≠ appFileResult.path :=
  boundary_filename_ne_disk_path corePackageName noExternalName
    bundlingAdapter appRequest [] (requestStatus appRequest.specifier [])
    appFileResult ⟨"/app", "{}"⟩ rfl rfl (by decide) rfl rfl rfl (Or.inl rfl)
    (by decide) (fun n h => nomatch h)

/-- Closed-form equation for create: it intercepts exactly when the control
flag does not disable custom resolution, path and importer are truthy, and
path carries neither the null sentinel nor the virtual-module prefix. -/
theorem create_eq (cleanUrlFn : String → String) (win32 : Bool)
    (packageCache : PackageCache) (phase : Phase) (build : PluginBuild)
    (kind path : String) (importer : Option String)
    (pluginData : Option EsBuildRequestAdapter.PluginData) :
    EsBuildRequestAdapter.create cleanUrlFn win32 packageCache phase build
        kind path importer pluginData =
      (if ((pluginData.bind fun p => p.embroider).bind
              fun e => e.enableCustomResolver).getD true = true ∧
          path ≠ "" ∧ importer.getD "" ≠ "" ∧
          strStartsWith path "\x00" = false ∧
          strStartsWith path "virtual-module:" = false then
        some
          ({ specifier := path
             fromFile := if win32 then
                 (cleanUrlFn (importer.getD "")).replace "/" "\\"
               else cleanUrlFn (importer.getD "")
             meta := (pluginData.bind fun p => p.embroider).bind
               fun e => e.meta },
           { packageCache := packageCache, phase := phase, context := build,
             kind := kind })
      else none) := by
  unfold EsBuildRequestAdapter.create
  cases hflag : ((pluginData.bind fun p => p.embroider).bind
      fun e => e.enableCustomResolver).getD true with
  | false => simp [hflag]
  | true => simp [hflag, Bool.not_eq_true, and_assoc]

/-- C8: create declines (returns nothing) exactly when the metadata control
flag disables custom resolution, path or importer is absent (falsy), path
begins with the null sentinel, or path starts with the reserved
virtual-module prefix; otherwise it returns the adapter together with an
initial ModuleRequest whose specifier is the incoming path and whose
fromFile is the normalized importer. -/
theorem create_gating (cleanUrlFn : String → String) (win32 : Bool)
    (packageCache : PackageCache) (phase : Phase) (build : PluginBuild)
    (kind path : String) (importer : Option String)
    (pluginData : Option EsBuildRequestAdapter.PluginData) :
    (EsBuildRequestAdapter.create cleanUrlFn win32 packageCache phase build
        kind path importer pluginData = none ↔
      (((pluginData.bind fun p => p.embroider).bind
          fun e => e.enableCustomResolver).getD true = false ∨
        path = "" ∨ importer.getD "" = "" ∨
        strStartsWith path "\x00" = true ∨
        strStartsWith path "virtual-module:" = true)) ∧
    (∀ imp, importer = some imp →
      ((pluginData.bind fun p => p.embroider).bind
          fun e => e.enableCustomResolver).getD true = true →
      path ≠ "" → imp ≠ "" →
      strStartsWith path "\x00" = false →
      strStartsWith path "virtual-module:" = false →
      EsBuildRequestAdapter.create cleanUrlFn win32 packageCache phase build
          kind path importer pluginData =
        some
          ({ specifier := path
             fromFile := if win32 then (cleanUrlFn imp).replace "/" "\\"
               else cleanUrlFn imp
             meta := (pluginData.bind fun p => p.embroider).bind
               fun e => e.meta },
           { packageCache := packageCache, phase := phase, context := build,
             kind := kind })) := by
  rw [create_eq cleanUrlFn win32 packageCache phase build kind path importer
    pluginData]
  constructor
  · by_cases hcond : ((pluginData.bind fun p => p.embroider).bind
        fun e => e.enableCustomResolver).getD true = true ∧
        path ≠ "" ∧ importer.getD "" ≠ "" ∧
        strStartsWith path "\x00" = false ∧
        strStartsWith path "virtual-module:" = false
    · rw [if_pos hcond]
      obtain ⟨h1, h2, h3, h4, h5⟩ := hcond
      constructor
      · intro h; exact absurd h (by simp)
      · rintro (h | h | h | h | h)
        · rw [h1] at h; cases h
        · exact absurd h h2
        · exact absurd h h3
        · rw [h4] at h; cases h
        · rw [h5] at h; cases h
    · rw [if_neg hcond]
      constructor
      · intro _
        by_contra hno
        push_neg at hno
        obtain ⟨g1, g2, g3, g4, g5⟩ := hno
        exact hcond ⟨Bool.ne_false_iff.mp g1, g2, g3,
          Bool.eq_false_iff.mpr g4, Bool.eq_false_iff.mpr g5⟩
      · intro _; rfl
  · intro imp himp h1 h2 h3 h4 h5
    subst himp
    rw [if_pos ⟨h1, h2, h3, h4, h5⟩]
    rfl

/-- Witness for C8: a concrete call with a truthy path and importer is
intercepted with the normalized importer as fromFile, and a call whose path
carries the virtual-module prefix is declined. -/
theorem create_gating_witness :
    EsBuildRequestAdapter.create cleanUrl false appOwnedCache Phase.other
        (idBuild appFileResult) "import-statement" "./widgets/button"
        (some "/app/src/app.js?v=1") none =
      some
        ({ specifier := "./widgets/button", fromFile := "/app/src/app.js",
           meta := none },
         { packageCache := appOwnedCache, phase := Phase.other,
           context := idBuild appFileResult, kind := "import-statement" }) ∧
    EsBuildRequestAdapter.create cleanUrl false appOwnedCache Phase.other
        (idBuild appFileResult) "import-statement" "virtual-module:foo"
        (some "/app/src/app.js") none = none := by
  constructor
  · have h := (create_gating cleanUrl false appOwnedCache Phase.other
      (idBuild appFileResult) "import-statement" "./widgets/button"
      (some "/app/src/app.js?v=1") none).2 "/app/src/app.js?v=1" rfl rfl
      (by decide) (by decide) (by decide) (by decide)
    rw [h]
    rfl
  · exact (create_gating cleanUrl false appOwnedCache Phase.other
      (idBuild appFileResult) "import-statement" "virtual-module:foo"
      (some "/app/src/app.js") none).1.mpr
      (Or.inr (Or.inr (Or.inr (Or.inr (by decide)))))

/-- C9: notFoundResponse yields a NotFound whose diagnostics list is exactly
one message, the string "module not found " followed by the specifier; it is
a pure function of the request, consulting neither the host resolver nor the
ledger. -/
theorem notFoundResponse_message (request : ModuleRequest) :
    ∃ err, EsBuildRequestAdapter.notFoundResponse request =
        Resolution.not_found err ∧
      err.errors = [{ text := "module not found " ++ request.specifier }] :=
  ⟨{ errors := [{ text := "module not found " ++ request.specifier }] }, rfl, rfl⟩

end Embroider
